import Mathlib

/-
Verification development for the Kaleidoscope-style interpreter
(tokenizer src/src/lexer.cpp and src/interpreter/src/ExprAST.cpp,
parser src/src/parser.cpp, lowering src/src/ast.cpp together with the
per-class files src/src/ForExprAST.cpp and src/interpreter/src/LetExprAST.cpp,
whose codegen bodies coincide with the ones in src/src/ast.cpp).

Modelling conventions:
* C characters read from the input stream are Int values, as returned by
  std::getchar; EOF is -1.
* the sole run-time value type of the language is a 64-bit float; every
  numeric value arising in the claims below (small integers, halves,
  tenths) is represented exactly by a binary64, so we model values as
  exact rationals.
* std::unordered_map is modelled as an association list; operator[] is
  mapIndex / alistSet below (default-inserting), .find / lookup is
  List.lookup.  Iteration order never matters for any statement proved
  here, only lookup results.
* fallible C++ functions that return a null pointer on failure are
  modelled with Option; functions with global side effects take and
  return an explicit state.
-/

/-! ## Character classification (ctype.h on ASCII inputs) -/

/-- Model of std::isdigit for the ASCII range (and EOF = -1). -/
def isdigit (c : Int) : Bool := 48 ≤ c && c ≤ 57

/-- Model of std::isalpha for the ASCII range (and EOF = -1). -/
def isalpha (c : Int) : Bool := (65 ≤ c && c ≤ 90) || (97 ≤ c && c ≤ 122)

/-- Model of std::isalnum for the ASCII range. -/
def isalnum (c : Int) : Bool := isdigit c || isalpha c

/-- Model of std::isspace for the ASCII range: space, tab, newline,
vertical tab, form feed, carriage return. -/
def isspace (c : Int) : Bool :=
  c == 32 || c == 9 || c == 10 || c == 11 || c == 12 || c == 13

/-! ## Association-list maps

std::unordered_map is modelled as a list of key/value pairs looked up
with List.lookup (first match wins).  alistSet models assignment through
operator[] (update the existing entry, or insert a fresh one), alistErase
models .erase. -/

/-- Assignment m[k] = v on a std::unordered_map: overwrite the entry if
the key is present, insert it otherwise. -/
def alistSet {κ α : Type} [BEq κ] : List (κ × α) → κ → α → List (κ × α)
  | [], k, v => [(k, v)]
  | (k₀, v₀) :: rest, k, v =>
      if k₀ == k then (k₀, v) :: rest else (k₀, v₀) :: alistSet rest k v

/-- Model of std::unordered_map::erase. -/
def alistErase {κ α : Type} [BEq κ] : List (κ × α) → κ → List (κ × α)
  | [], _ => []
  | (k₀, v₀) :: rest, k =>
      if k₀ == k then rest else (k₀, v₀) :: alistErase rest k

/-! ## Tokens

The Token enum of interpreter/include/CallExprAST.h (the current
lexer.h), merged with the out-of-band payloads IdentifierStr and NumVal:
the lexer returns tokens [0-255] for unknown characters (tok_char) and
the negative enum values for known things. -/

/-- A lexed token, with its payload where the C++ version stores the
payload in the globals IdentifierStr / NumVal. -/
inductive Tok where
  | tok_eof
  | tok_err
  | tok_def
  | tok_externKw
  | tok_identifier (s : String)
  | tok_number (v : ℚ)
  | tok_if
  | tok_then
  | tok_else
  | tok_for
  | tok_in
  | tok_binary
  | tok_unary
  | tok_let
  | tok_char (c : Int)

/-- The int value of a token, per the Token enum (tok_eof = -1 ...
tok_let = -14); a single-character token is its character value. -/
def tokCode : Tok → Int
  | .tok_eof => -1
  | .tok_err => -2
  | .tok_def => -3
  | .tok_externKw => -4
  | .tok_identifier _ => -5
  | .tok_number _ => -6
  | .tok_if => -7
  | .tok_then => -8
  | .tok_else => -9
  | .tok_for => -10
  | .tok_in => -11
  | .tok_binary => -12
  | .tok_unary => -13
  | .tok_let => -14
  | .tok_char c => c

/-! ## AST node variants

One constructor per ExprAST subclass.  Operator characters are kept as
Char (the C++ classes store char Op fields). -/

/-- The expression AST: NumberExprAST, VariableExprAST, UnaryExprAST,
BinaryExprAST, CallExprAST, IfExprAST, ForExprAST, LetExprAST. -/
inductive Expr where
  | NumberExprAST (Val : ℚ)
  | VariableExprAST (Name : String)
  | UnaryExprAST (Op : Char) (Operand : Expr)
  | BinaryExprAST (Op : Char) (LHS RHS : Expr)
  | CallExprAST (Callee : String) (Args : List Expr)
  | IfExprAST (Cond Then Else : Expr)
  | ForExprAST (VarName : String) (Start End_ : Expr) (Step : Option Expr)
      (Body : Expr)
  | LetExprAST (VarNames : List (String × Option Expr)) (Body : Expr)

/-- PrototypeAST: function name, parameter names, operator flag and
binary precedence (src/src/ast.cpp lines 596-600). -/
structure PrototypeAST where
  Name : String
  Args : List String
  IsOperator : Bool
  Precedence : Nat

/-- Is this a function prototype for a unary operator?
(src/src/ast.cpp line 649). -/
def PrototypeAST.isUnaryOp (p : PrototypeAST) : Bool :=
  p.IsOperator && p.Args.length == 1

/-- Is this a function prototype for a binary operator?
(src/src/ast.cpp line 652). -/
def PrototypeAST.isBinaryOp (p : PrototypeAST) : Bool :=
  p.IsOperator && p.Args.length == 2

/-- The character of the operator: the final character of the
synthesized name (src/src/ast.cpp lines 656-658); the NUL character
when this is not an operator prototype. -/
def PrototypeAST.getOperatorName (p : PrototypeAST) : Char :=
  if p.isUnaryOp || p.isBinaryOp then p.Name.back else Char.ofNat 0

/-- FunctionAST: a prototype together with the body expression. -/
structure FunctionAST where
  Proto : PrototypeAST
  Body : Expr

/-! ## Tokenizer

Both generations of gettok are embedded: the one in src/src/lexer.cpp
(SrcLexer) and the one in src/interpreter/src/ExprAST.cpp (InterpLexer).
The input stream is a List Int of characters; std::getchar returns the
head, or EOF = -1 when the stream is exhausted.  The static LastChar is
threaded explicitly: gettok takes the LastChar left by the previous call
(initially the space 32) and returns the token, the new LastChar and the
remaining stream.  The interpreter version additionally tracks source
locations, which play no role in any claim and are omitted here. -/

/-- Model of std::getchar on an explicit stream: EOF (-1) at exhaustion. -/
def getchar : List Int → Int × List Int
  | [] => (-1, [])
  | c :: rest => (c, rest)

/-- Continuation characters of an identifier: alphanumerics and the two
extra characters underscore (95) and dollar (36). -/
def identCont (c : Int) : Bool := isalnum c || c == 95 || c == 36

/-- The while-loop that skips whitespace at the top of gettok. -/
def skipWhitespace : Int → List Int → Int × List Int
  | last, [] => if isspace last then (-1, []) else (last, [])
  | last, c :: rest =>
      if isspace last then skipWhitespace c rest else (last, c :: rest)

/-- The while-loop that accumulates the continuation characters of an
identifier; returns them together with the first non-continuation
character (the new LastChar) and the remaining stream. -/
def readIdent : List Int → List Int × Int × List Int
  | [] => ([], -1, [])
  | c :: rest =>
      if identCont c then
        let r := readIdent rest
        (c :: r.1, r.2.1, r.2.2)
      else ([], c, rest)

/-- The do-while loop of the digit-leading numeric branch of gettok:
append LastChar to NumStr, read the next character, flag the first
decimal point, fail on a second one, and continue while the next
character is a digit or a point.  On the second-decimal-point error the
C++ returns tok_err from inside the loop; the error carries the LastChar
and stream at that moment. -/
def readNumDigit : List Int → Bool → Int → List Int →
    Except (Int × List Int) (List Int × Int × List Int)
  | numStr, _, last, [] =>
      -- the next getchar returns EOF, which is neither a digit nor a
      -- point, so the loop exits
      .ok (numStr ++ [last], -1, [])
  | numStr, found, last, c :: rest =>
      let numStr := numStr ++ [last]
      if !found && c == 46 then
        -- this is our first decimal point so we accept it (and the loop
        -- condition, LastChar == a point, holds)
        readNumDigit numStr true c rest
      else if c == 46 then
        -- this is not our first decimal point so this is an error
        .error (c, rest)
      else if isdigit c then readNumDigit numStr found c rest
      else .ok (numStr, c, rest)

/-- The do-while loop of the point-leading numeric branch of gettok:
append LastChar to NumStr, read the next character, continue while it is
a digit. -/
def readNumDot : List Int → Int → List Int → List Int × Int × List Int
  | numStr, last, [] => (numStr ++ [last], -1, [])
  | numStr, last, c :: rest =>
      let numStr := numStr ++ [last]
      if isdigit c then readNumDot numStr c rest else (numStr, c, rest)

/-- The do-while loop of the comment branch of gettok: read characters
until EOF, newline or carriage return. -/
def skipComment : List Int → Int × List Int
  | [] => (-1, [])
  | c :: rest => if c == 10 || c == 13 then (c, rest) else skipComment rest

/-- Decimal value of an integer digit string and a fraction digit
string, exactly as a rational. -/
def decVal (ip fp : List Int) : ℚ :=
  ip.foldl (fun a c => a * 10 + ((c - 48 : Int) : ℚ)) 0 +
  fp.foldr (fun c a => (((c - 48 : Int) : ℚ) + a) / 10) 0

/-- Model of C strtod restricted to the strings the lexer hands it
(digits with at most one decimal point): returns the converted value and
the unconverted suffix (the end pointer).  When the subject sequence
contains no digits there is no conversion: the value is 0 and the end
pointer is the whole input, per the C standard. -/
def strtod (s : List Int) : ℚ × List Int :=
  let ip := s.takeWhile isdigit
  let r1 := s.dropWhile isdigit
  match r1 with
  | c :: r2 =>
      if c == 46 then
        let fp := r2.takeWhile isdigit
        let r3 := r2.dropWhile isdigit
        if ip.isEmpty && fp.isEmpty then (0, s) else (decVal ip fp, r3)
      else if ip.isEmpty then (0, s) else (decVal ip [], r1)
  | [] => if ip.isEmpty then (0, s) else (decVal ip [], r1)

/-- Build a Lean string from stream characters. -/
def strOfInts (l : List Int) : String :=
  String.mk (l.map (fun c => Char.ofNat c.toNat))

namespace SrcLexer

/-- Tokenizer gettok of src/src/lexer.cpp (lines 46-146).  The fuel only
bounds the comment-restart recursion. -/
def gettok (fuel : Nat) (last0 : Int) (input0 : List Int) :
    Tok × Int × List Int :=
  match fuel with
  | 0 => (.tok_eof, last0, input0)
  | fuel + 1 =>
    -- skip any whitespace
    let p := skipWhitespace last0 input0
    let last := p.1
    let input := p.2
    -- parse identifier and specific keywords
    if isalpha last || last == 95 || last == 36 then
      let r := readIdent input
      let ident := strOfInts (last :: r.1)
      if ident == "def" then (.tok_def, r.2.1, r.2.2)
      else if ident == "extern" then (.tok_externKw, r.2.1, r.2.2)
      else (.tok_identifier ident, r.2.1, r.2.2)
    else if last == 46 then
      -- the numeric value started with a point: accept only digits
      let r := readNumDot [] last input
      -- it is an error to have a letter immediately follow a number
      if isalpha r.2.1 then (.tok_err, r.2.1, r.2.2)
      else
        let s := strtod r.1
        -- if strlen(NumStrEnd) is nonzero, parts of NumStr could not be
        -- parsed as a double: invalid token
        if s.2.length ≠ 0 then (.tok_err, r.2.1, r.2.2)
        else (.tok_number s.1, r.2.1, r.2.2)
    else if isdigit last then
      match readNumDigit [] false last input with
      | .error e => (.tok_err, e.1, e.2)
      | .ok r =>
          -- it is an error to have a letter immediately follow a number
          if isalpha r.2.1 then (.tok_err, r.2.1, r.2.2)
          else (.tok_number (strtod r.1).1, r.2.1, r.2.2)
    else if last == 35 then
      -- comment until end of line, then return the following token
      let p2 := skipComment input
      if p2.1 != -1 then gettok fuel p2.1 p2.2
      else (.tok_eof, -1, p2.2)
    else if last == -1 then (.tok_eof, -1, input)
    else
      -- just return the character as its ASCII value
      let p2 := getchar input
      (.tok_char last, p2.1, p2.2)

end SrcLexer

namespace InterpLexer

/-- Keyword table of the interpreter lexer (ExprAST.cpp lines 161-181). -/
def keywordTok (ident : String) : Tok :=
  if ident == "def" then .tok_def
  else if ident == "extern" then .tok_externKw
  else if ident == "if" then .tok_if
  else if ident == "then" then .tok_then
  else if ident == "else" then .tok_else
  else if ident == "for" then .tok_for
  else if ident == "in" then .tok_in
  else if ident == "binary" then .tok_binary
  else if ident == "unary" then .tok_unary
  else if ident == "let" then .tok_let
  else .tok_identifier ident

/-- Tokenizer gettok of src/interpreter/src/ExprAST.cpp (lines 140-263);
source locations are omitted.  Note the point-leading numeric branch:
the C++ declares char *NumStrEnd = nullptr, calls
strtod(NumStr.c_str(), &NumStrEnd), and then tests if (NumStrEnd) —
strtod always stores a non-null pointer into NumStrEnd, so the test
succeeds and the branch returns tok_err for every point-leading
literal. -/
def gettok (fuel : Nat) (last0 : Int) (input0 : List Int) :
    Tok × Int × List Int :=
  match fuel with
  | 0 => (.tok_eof, last0, input0)
  | fuel + 1 =>
    -- skip any whitespace
    let p := skipWhitespace last0 input0
    let last := p.1
    let input := p.2
    -- parse identifier and specific keywords
    if isalpha last || last == 95 || last == 36 then
      let r := readIdent input
      (keywordTok (strOfInts (last :: r.1)), r.2.1, r.2.2)
    else if last == 46 then
      -- the numeric value started with a point: accept only digits
      let r := readNumDot [] last input
      -- it is an error to have a letter immediately follow a number
      if isalpha r.2.1 then (.tok_err, r.2.1, r.2.2)
      else
        -- if (NumStrEnd): strtod assigned NumStrEnd a non-null pointer,
        -- so this is taken unconditionally
        let numStrEndNonNull := true
        if numStrEndNonNull then (.tok_err, r.2.1, r.2.2)
        else (.tok_number (strtod r.1).1, r.2.1, r.2.2)
    else if isdigit last then
      match readNumDigit [] false last input with
      | .error e => (.tok_err, e.1, e.2)
      | .ok r =>
          -- it is an error to have a letter immediately follow a number
          if isalpha r.2.1 then (.tok_err, r.2.1, r.2.2)
          else (.tok_number (strtod r.1).1, r.2.1, r.2.2)
    else if last == 35 then
      -- comment until end of line, then return the following token
      let p2 := skipComment input
      if p2.1 != -1 then gettok fuel p2.1 p2.2
      else (.tok_eof, -1, p2.2)
    else if last == -1 then (.tok_eof, -1, input)
    else
      -- just return the character as its ASCII value
      let p2 := getchar input
      (.tok_char last, p2.1, p2.2)

end InterpLexer

deriving instance DecidableEq for Tok

/-! ## Claim C8 -/

/-- C8: the tokenizer is claimed to return a number token for every
numeric literal with at most one decimal point and no letter abutting
it, including point-leading literals such as .5, and invalid-token
exactly on an abutting letter or a second decimal point.  The
src/src/lexer.cpp tokenizer does behave this way on the inputs below,
but the current tokenizer in src/interpreter/src/ExprAST.cpp returns
invalid-token (tok_err) for every point-leading literal: after strtod
it tests the end pointer itself (if (NumStrEnd)), which strtod always
makes non-null, instead of testing whether the unconverted remainder is
nonempty (if (strlen(NumStrEnd)), as src/src/lexer.cpp does).  The
repository's own test, test/lexer.sh, expects the literal .7839 to lex
as a number.  Below: on the stream ".5;" the interpreter tokenizer
yields tok_err where src/src/lexer.cpp yields the number 1/2; both
agree on "1.2;" (number 6/5), on the second point in "1.2.3;" (error)
and on the abutting letter in "1a;" (error). -/
theorem c8_dot_literal_divergence :
    InterpLexer.gettok 9 32 [46, 53, 59] = (Tok.tok_err, 59, []) ∧
    SrcLexer.gettok 9 32 [46, 53, 59] = (Tok.tok_number (1/2), 59, []) ∧
    InterpLexer.gettok 9 32 [49, 46, 50, 59] =
      (Tok.tok_number (6/5), 59, []) ∧
    SrcLexer.gettok 9 32 [49, 46, 50, 59] = (Tok.tok_number (6/5), 59, []) ∧
    InterpLexer.gettok 9 32 [49, 46, 50, 46, 51, 59] =
      (Tok.tok_err, 46, [51, 59]) ∧
    SrcLexer.gettok 9 32 [49, 46, 50, 46, 51, 59] =
      (Tok.tok_err, 46, [51, 59]) ∧
    InterpLexer.gettok 9 32 [49, 97, 59] = (Tok.tok_err, 97, [59]) ∧
    SrcLexer.gettok 9 32 [49, 97, 59] = (Tok.tok_err, 97, [59]) := by
  refine ⟨?_, ?_, ?_, ?_, ?_, ?_, ?_, ?_⟩ <;> with_unfolding_all decide

/-! ## Parser (src/src/parser.cpp)

The parser holds one current token (CurTok); we model the token buffer
plus the rest of the input as a List Tok whose head is CurTok, so
getNextToken is List.drop 1.  Every Parse* function returns the parse
result (none on failure, as the C++ returns a null node) together with
the token state it leaves behind.  Recursion is bounded by explicit
fuel; all concrete statements below use fuel that is never exhausted.

On isascii: parser.cpp lines 21-22 define a file-local
  static inline bool isascii(const char c) { return c > 0 || c < 128; }
whose body is true for every char.  However, every call site in the
file (GetTokPrecedence line 200, ParseUnary line 216, ParsePrototype
lines 300 and 312) passes a value of type int (the current token), and
the C library's isascii(int) — declared by ctype.h, which the LLVM
headers include transitively — is an exact match for an int argument,
so overload resolution selects it over the file-local char overload at
every one of these call sites.  We therefore embed the predicate the
calls resolve to, the C library's 0 <= c <= 127; the repository's
README transcripts (identifiers parsed as primaries, unary operators
applied) are consistent with exactly this behaviour. -/

/-- The file-local isascii of parser.cpp lines 21-22, as written.  Its
condition is a tautology over char; it is never selected at the int
call sites (see the section comment) and is recorded here only for
reference. -/
def isascii_file_local (c : Int) : Bool := c > 0 || c < 128

/-- The isascii the parser's calls resolve to: the C library predicate,
true exactly on 0..127. -/
def isascii (c : Int) : Bool := 0 ≤ c && c < 128

/-- The file-local isascii is constantly true: the reason the C library
overload, not it, carries the behaviour the parser relies on. -/
theorem isascii_file_local_const (c : Int) : isascii_file_local c = true := by
  simp only [isascii_file_local, Bool.or_eq_true, decide_eq_true_eq]
  omega

/-- The int value of the current token: the head of the token state
(end-of-input is represented by tok_eof, consistent with gettok, which
returns tok_eof without consuming past it). -/
def curCode (toks : List Tok) : Int :=
  match toks with
  | [] => -1
  | t :: _ => tokCode t

/-- Character of an operator token, as the C++ cast (char)CurTok. -/
def charOfInt (c : Int) : Char := Char.ofNat c.toNat

/-- The binary-operator precedence table seeded by
SetupBinopPrecedences (parser.cpp lines 26-37), keyed by character
code: = 2 < 10 > 10 + 20 - 20 * 40 / 40. -/
def SetupBinopPrecedences : List (Int × Int) :=
  [(61, 2), (60, 10), (62, 10), (43, 20), (45, 20), (42, 40), (47, 40)]

/-- GetTokPrecedence (parser.cpp lines 198-206): -1 unless the current
token is an ASCII character with a strictly positive table entry.
BinopPrecedence[CurTok] is operator[], which default-inserts 0 for an
absent key; an entry 0 and an absent entry behave identically in every
read of the table (both yield -1 here) and under the overwriting
InstallBinopPrecedence, so the read is modelled as a lookup with
default 0 on an unchanged table. -/
def GetTokPrecedence (prec : List (Int × Int)) (toks : List Tok) : Int :=
  let CurTok := curCode toks
  if !(isascii CurTok) then -1
  else
    let TokPrec := (List.lookup CurTok prec).getD 0
    if TokPrec ≤ 0 then -1 else TokPrec

mutual

/-- numberexpr (parser.cpp lines 45-49): wrap getNumVal and consume the
number token.  Only reached with a number token at the head; any other
head would read the stale NumVal global, modelled as 0. -/
def ParseNumberExpr (prec : List (Int × Int)) :
    Nat → List Tok → Option Expr × List Tok
  | 0, toks => (none, toks)
  | _ + 1, toks =>
      match toks with
      | .tok_number v :: rest => (some (.NumberExprAST v), rest)
      | _ => (some (.NumberExprAST 0), toks.drop 1)

/-- parenexpr (parser.cpp lines 52-62). -/
def ParseParenExpr (prec : List (Int × Int)) :
    Nat → List Tok → Option Expr × List Tok
  | 0, toks => (none, toks)
  | fuel + 1, toks =>
      let r := ParseExpression prec fuel (toks.drop 1)
      match r with
      | (none, rest) => (none, rest)
      | (some v, rest) =>
          if curCode rest == 41 then (some v, rest.drop 1)
          else (none, rest)

/-- identifierexpr (parser.cpp lines 67-99): a variable reference, or a
call when a parenthesis follows. -/
def ParseIdentifierExpr (prec : List (Int × Int)) :
    Nat → List Tok → Option Expr × List Tok
  | 0, toks => (none, toks)
  | fuel + 1, toks =>
      match toks with
      | .tok_identifier IdName :: rest =>
          if curCode rest == 40 then
            let rest := rest.drop 1
            if curCode rest == 41 then
              (some (.CallExprAST IdName []), rest.drop 1)
            else
              match ParseCallArgs prec fuel rest with
              | (none, rest2) => (none, rest2)
              | (some args, rest2) =>
                  (some (.CallExprAST IdName args), rest2.drop 1)
          else (some (.VariableExprAST IdName), rest)
      | _ => (none, toks)

/-- The argument loop inside ParseIdentifierExpr (parser.cpp lines
81-93): expressions separated by commas, stopping with the closing
parenthesis as the current token. -/
def ParseCallArgs (prec : List (Int × Int)) :
    Nat → List Tok → Option (List Expr) × List Tok
  | 0, toks => (none, toks)
  | fuel + 1, toks =>
      match ParseExpression prec fuel toks with
      | (none, rest) => (none, rest)
      | (some arg, rest) =>
          if curCode rest == 41 then (some [arg], rest)
          else if curCode rest != 44 then (none, rest)
          else
            match ParseCallArgs prec fuel (rest.drop 1) with
            | (none, rest2) => (none, rest2)
            | (some args, rest2) => (some (arg :: args), rest2)

/-- letexpr (parser.cpp lines 103-164). -/
def ParseLetExpr (prec : List (Int × Int)) :
    Nat → List Tok → Option Expr × List Tok
  | 0, toks => (none, toks)
  | fuel + 1, toks =>
      let toks := toks.drop 1
      match toks with
      | .tok_identifier _ :: _ =>
          match ParseLetBindings prec fuel toks with
          | (none, rest) => (none, rest)
          | (some varNames, rest) =>
              if curCode rest != tokCode .tok_in then (none, rest)
              else
                match ParseExpression prec fuel (rest.drop 1) with
                | (none, rest2) => (none, rest2)
                | (some body, rest2) =>
                    (some (.LetExprAST varNames body), rest2)
      | _ => (none, toks)

/-- The binding loop inside ParseLetExpr (parser.cpp lines 118-146):
identifier, optional initializer after an equals sign, continuing
past commas.  Only entered with an identifier at the head. -/
def ParseLetBindings (prec : List (Int × Int)) :
    Nat → List Tok → Option (List (String × Option Expr)) × List Tok
  | 0, toks => (none, toks)
  | fuel + 1, toks =>
      match toks with
      | .tok_identifier varName :: rest =>
          let step :=
            if curCode rest == 61 then
              match ParseExpression prec fuel (rest.drop 1) with
              | (none, rest2) => (none, rest2)
              | (some e, rest2) => (some (some e), rest2)
            else ((some none : Option (Option Expr)), rest)
          match step with
          | (none, rest2) => (none, rest2)
          | (some initV, rest2) =>
              if curCode rest2 != 44 then (some [(varName, initV)], rest2)
              else
                let rest3 := rest2.drop 1
                match rest3 with
                | .tok_identifier _ :: _ =>
                    match ParseLetBindings prec fuel rest3 with
                    | (none, rest4) => (none, rest4)
                    | (some more, rest4) =>
                        (some ((varName, initV) :: more), rest4)
                | _ => (none, rest3)
      | _ => (none, toks)

/-- primary (parser.cpp lines 174-195). -/
def ParsePrimary (prec : List (Int × Int)) :
    Nat → List Tok → Option Expr × List Tok
  | 0, toks => (none, toks)
  | fuel + 1, toks =>
      match toks with
      | .tok_identifier _ :: _ => ParseIdentifierExpr prec fuel toks
      | .tok_number _ :: _ => ParseNumberExpr prec fuel toks
      | .tok_if :: _ => ParseIfExpr prec fuel toks
      | .tok_for :: _ => ParseForExpr prec fuel toks
      | .tok_let :: _ => ParseLetExpr prec fuel toks
      | .tok_char c :: _ =>
          if c == 40 then ParseParenExpr prec fuel toks else (none, toks)
      | _ => (none, toks)

/-- unary (parser.cpp lines 211-228): delegate to primary when the
current token is not an ASCII character or is a parenthesis or comma;
otherwise strip the token as a prefix unary operator and recurse. -/
def ParseUnary (prec : List (Int × Int)) :
    Nat → List Tok → Option Expr × List Tok
  | 0, toks => (none, toks)
  | fuel + 1, toks =>
      let CurTok := curCode toks
      if !(isascii CurTok) || CurTok == 40 || CurTok == 44 then
        ParsePrimary prec fuel toks
      else
        match ParseUnary prec fuel (toks.drop 1) with
        | (some operand, rest) =>
            (some (.UnaryExprAST (charOfInt CurTok) operand), rest)
        | (none, rest) => (none, rest)

/-- binoprhs (parser.cpp lines 232-272): the precedence-climbing loop.
The trailing loop iteration is the tail call at the same ExprPrec. -/
def ParseBinOpRHS (prec : List (Int × Int)) :
    Nat → Int → Expr → List Tok → Option Expr × List Tok
  | 0, _, _, toks => (none, toks)
  | fuel + 1, ExprPrec, LHS, toks =>
      let TokPrec := GetTokPrecedence prec toks
      if TokPrec < ExprPrec then (some LHS, toks)
      else
        let BinOp := curCode toks
        let toks := toks.drop 1
        match ParseUnary prec fuel toks with
        | (none, rest) => (none, rest)
        | (some RHS, rest) =>
            let NextPrec := GetTokPrecedence prec rest
            if TokPrec < NextPrec then
              match ParseBinOpRHS prec fuel (TokPrec + 1) RHS rest with
              | (none, rest2) => (none, rest2)
              | (some RHS2, rest2) =>
                  ParseBinOpRHS prec fuel ExprPrec
                    (.BinaryExprAST (charOfInt BinOp) LHS RHS2) rest2
            else
              ParseBinOpRHS prec fuel ExprPrec
                (.BinaryExprAST (charOfInt BinOp) LHS RHS) rest

/-- expression (parser.cpp lines 276-281). -/
def ParseExpression (prec : List (Int × Int)) :
    Nat → List Tok → Option Expr × List Tok
  | 0, toks => (none, toks)
  | fuel + 1, toks =>
      match ParseUnary prec fuel toks with
      | (none, rest) => (none, rest)
      | (some lhs, rest) => ParseBinOpRHS prec fuel 0 lhs rest

/-- ifexpr (parser.cpp lines 390-426). -/
def ParseIfExpr (prec : List (Int × Int)) :
    Nat → List Tok → Option Expr × List Tok
  | 0, toks => (none, toks)
  | fuel + 1, toks =>
      match ParseExpression prec fuel (toks.drop 1) with
      | (none, rest) => (none, rest)
      | (some c, rest) =>
          if curCode rest != tokCode .tok_then then (none, rest)
          else
            match ParseExpression prec fuel (rest.drop 1) with
            | (none, rest2) => (none, rest2)
            | (some t, rest2) =>
                if curCode rest2 != tokCode .tok_else then (none, rest2)
                else
                  match ParseExpression prec fuel (rest2.drop 1) with
                  | (none, rest3) => (none, rest3)
                  | (some e, rest3) => (some (.IfExprAST c t e), rest3)

/-- forexpr (parser.cpp lines 431-500). -/
def ParseForExpr (prec : List (Int × Int)) :
    Nat → List Tok → Option Expr × List Tok
  | 0, toks => (none, toks)
  | fuel + 1, toks =>
      let toks := toks.drop 1
      match toks with
      | .tok_identifier IdName :: rest =>
          if curCode rest != 61 then (none, rest)
          else
            match ParseExpression prec fuel (rest.drop 1) with
            | (none, rest2) => (none, rest2)
            | (some start, rest2) =>
                if curCode rest2 != 44 then (none, rest2)
                else
                  match ParseExpression prec fuel (rest2.drop 1) with
                  | (none, rest3) => (none, rest3)
                  | (some endE, rest3) =>
                      let stepR :=
                        if curCode rest3 == 44 then
                          match ParseExpression prec fuel (rest3.drop 1) with
                          | (none, rest4) => (none, rest4)
                          | (some s, rest4) => (some (some s), rest4)
                        else ((some none : Option (Option Expr)), rest3)
                      match stepR with
                      | (none, rest4) => (none, rest4)
                      | (some step, rest4) =>
                          if curCode rest4 != tokCode .tok_in then
                            (none, rest4)
                          else
                            match ParseExpression prec fuel
                                (rest4.drop 1) with
                            | (none, rest5) => (none, rest5)
                            | (some body, rest5) =>
                                (some (.ForExprAST IdName start endE step
                                  body), rest5)
      | _ => (none, toks)

end

/-! ## Claims C5 and C7 -/

/-- C5: the unary production delegates every multi-character token
(identifier, number, keyword — all carried as negative token values) to
the primary parser and never consumes it as a unary operator; a prefix
unary operator is stripped exactly when the current token is a single
ASCII character other than an opening parenthesis (40) and a comma
(44), in which case ParseUnary consumes it and recurses for the
operand. -/
theorem c5_parse_unary_delegation :
    (∀ (prec : List (Int × Int)) (fuel : Nat) (t : Tok) (rest : List Tok),
        tokCode t < 0 →
        ParseUnary prec (fuel + 1) (t :: rest) =
          ParsePrimary prec fuel (t :: rest)) ∧
    (∀ (prec : List (Int × Int)) (fuel : Nat) (c : Int) (rest : List Tok),
        0 ≤ c → c < 128 → c ≠ 40 → c ≠ 44 →
        ParseUnary prec (fuel + 1) (.tok_char c :: rest) =
          match ParseUnary prec fuel rest with
          | (some operand, rest2) =>
              (some (.UnaryExprAST (charOfInt c) operand), rest2)
          | (none, rest2) => (none, rest2)) := by
  constructor
  · intro prec fuel t rest h
    have h0 : ¬ (0 ≤ tokCode t) := by omega
    simp [ParseUnary, curCode, isascii, h0]
  · intro prec fuel c rest h0 h1 h2 h3
    simp [ParseUnary, curCode, tokCode, isascii, h0, h1, h2, h3]

/-- Witness for C5 at concrete inputs: the identifier a (token value
-5) is delegated to primary, and the ASCII character 33 (an
exclamation mark) is stripped as a unary operator. -/
theorem c5_parse_unary_delegation_witness :
    (ParseUnary SetupBinopPrecedences 6 [.tok_identifier "a", .tok_eof] =
      ParsePrimary SetupBinopPrecedences 5 [.tok_identifier "a", .tok_eof]) ∧
    (ParseUnary SetupBinopPrecedences 6
        [.tok_char 33, .tok_identifier "x", .tok_eof] =
      match ParseUnary SetupBinopPrecedences 5
          [.tok_identifier "x", .tok_eof] with
      | (some operand, rest2) =>
          (some (.UnaryExprAST (charOfInt 33) operand), rest2)
      | (none, rest2) => (none, rest2)) :=
  ⟨c5_parse_unary_delegation.1 _ 5 _ _ (by decide),
   c5_parse_unary_delegation.2 _ 5 33 _ (by decide) (by decide) (by decide)
     (by decide)⟩

/-- C7: with the built-in precedences seeded, a + b * c parses with the
multiplication nested on the right of the addition, and a - b - c
(equal precedence) parses left-associatively, the trailing semicolon
left unconsumed. -/
theorem c7_precedence_associativity :
    ParseExpression SetupBinopPrecedences 20
        [.tok_identifier "a", .tok_char 43, .tok_identifier "b",
         .tok_char 42, .tok_identifier "c", .tok_char 59, .tok_eof] =
      (some (.BinaryExprAST '+' (.VariableExprAST "a")
        (.BinaryExprAST '*' (.VariableExprAST "b") (.VariableExprAST "c"))),
       [.tok_char 59, .tok_eof]) ∧
    ParseExpression SetupBinopPrecedences 20
        [.tok_identifier "a", .tok_char 45, .tok_identifier "b",
         .tok_char 45, .tok_identifier "c", .tok_char 59, .tok_eof] =
      (some (.BinaryExprAST '-'
        (.BinaryExprAST '-' (.VariableExprAST "a") (.VariableExprAST "b"))
        (.VariableExprAST "c")),
       [.tok_char 59, .tok_eof]) := by
  exact ⟨by with_unfolding_all rfl, by with_unfolding_all rfl⟩

/-! ## Lowering / codegen (src/src/ast.cpp)

The emitted backend IR is modelled explicitly: instructions append to
basic blocks (labelled by Nat) through an insert point, mutable slots
(alloca results) and instruction results (registers) are numbered by
counters, and the per-function scope NamedValues maps a variable name
to an AllocaInst pointer — Option Nat, where none models the null
pointer that operator[] default-inserts.  The process-wide state
(module functions, FunctionProtos, BinopPrecedence) and the diagnostics
emitted through LogErrorV are carried in the same record.  assert
failures (the C assert macro aborts the process) are recorded in a
dedicated flag, distinct from the LogErrorV-and-return-null error
path. -/

/-- An llvm::Value: a floating constant, an instruction result
(register), or a function argument. -/
inductive LValue where
  | constFP (q : ℚ)
  | reg (n : Nat)
  | arg (i : Nat)
deriving DecidableEq

/-- The backend instructions the lowering emits. -/
inductive Instr where
  | load (dst : Nat) (slot : Nat)
  | store (v : LValue) (slot : Nat)
  | fadd (dst : Nat) (a b : LValue)
  | fsub (dst : Nat) (a b : LValue)
  | fmul (dst : Nat) (a b : LValue)
  | fdiv (dst : Nat) (a b : LValue)
  | fcmpULT (dst : Nat) (a b : LValue)
  | fcmpUGT (dst : Nat) (a b : LValue)
  | fcmpONE (dst : Nat) (a b : LValue)
  | uitofp (dst : Nat) (a : LValue)
  | call (dst : Nat) (callee : String) (args : List LValue)
  | phi (dst : Nat) (incoming : List (LValue × Nat))
  | br (target : Nat)
  | condbr (cond : LValue) (thenB elseB : Nat)
  | ret (v : LValue)
deriving DecidableEq

/-- A function present in the current llvm::Module: its name, its
parameter names, and its entry block once a body has been attached
(none for a declaration). -/
structure ModFn where
  Name : String
  Args : List String
  entry : Option Nat
deriving DecidableEq

deriving instance DecidableEq for PrototypeAST

/-- The diagnostics produced through LogErrorV, one constructor per
message site. -/
inductive LowerErr where
  | UnknownVariableName (name : String)
  | UnknownFunctionReferenced (name : String)
  | WrongNumberOfArguments (callee : String) (expected actual : Nat)
  | NotAVariableExpression
  | UnknownVariableNameAssign (name : String)
  | UnknownUnaryOperator (op : Char)
deriving DecidableEq

/-- The state threaded through lowering: the per-function scope
NamedValues, the emitted blocks and insert point, the fresh-name
counters, the module contents, the process-wide prototype registry and
operator table, the diagnostics, and the assert flag. -/
structure CGState where
  NamedValues : List (String × Option Nat)
  blocks : List (Nat × List Instr)
  insertPt : Nat
  nextReg : Nat
  nextSlot : Nat
  nextLabel : Nat
  ModuleFns : List ModFn
  FunctionProtos : List (String × PrototypeAST)
  BinopPrecedence : List (Int × Int)
  errors : List LowerErr
  assertFailed : Bool
deriving DecidableEq

/-- NamedValues[Name] through operator[]: return the mapped pointer, or
default-insert the null pointer for an absent name and return that. -/
def mapIndex (m : List (String × Option Nat)) (k : String) :
    Option Nat × List (String × Option Nat) :=
  match List.lookup k m with
  | some v => (v, m)
  | none => (none, m ++ [(k, none)])

/-- Append an instruction to the block with the given label, creating
the block if needed. -/
def blockAppend (bs : List (Nat × List Instr)) (l : Nat) (i : Instr) :
    List (Nat × List Instr) :=
  match bs with
  | [] => [(l, [i])]
  | (l₀, is) :: rest =>
      if l₀ == l then (l₀, is ++ [i]) :: rest
      else (l₀, is) :: blockAppend rest l i

/-- Emit an instruction at the current insert point. -/
def CGState.emit (st : CGState) (i : Instr) : CGState :=
  { st with blocks := blockAppend st.blocks st.insertPt i }

/-- A fresh instruction-result register. -/
def CGState.freshReg (st : CGState) : Nat × CGState :=
  (st.nextReg, { st with nextReg := st.nextReg + 1 })

/-- BasicBlock::Create: a fresh, empty block.  Attachment order inside
the function is immaterial here (blocks are found by label), so blocks
are recorded at creation. -/
def CGState.newBlock (st : CGState) : Nat × CGState :=
  (st.nextLabel,
   { st with nextLabel := st.nextLabel + 1,
             blocks := st.blocks ++ [(st.nextLabel, [])] })

/-- Record a LogErrorV diagnostic (the C++ prints it and returns the
null pointer). -/
def CGState.logError (st : CGState) (e : LowerErr) : CGState :=
  { st with errors := st.errors ++ [e] }

/-- CreateEntryBlockAlloca (ast.cpp lines 192-202): an alloca in the
entry block of the current function, modelled as a fresh slot id. -/
def CreateEntryBlockAlloca (st : CGState) : Nat × CGState :=
  (st.nextSlot, { st with nextSlot := st.nextSlot + 1 })

/-- PrototypeAST::codegen (ast.cpp lines 606-633): declare the function
in the module, one double parameter per formal name. -/
def PrototypeAST.codegen (p : PrototypeAST) (st : CGState) :
    ModFn × CGState :=
  let f : ModFn := { Name := p.Name, Args := p.Args, entry := none }
  (f, { st with ModuleFns := st.ModuleFns ++ [f] })

/-- getFunction (ast.cpp lines 174-188): a function already in the
module, else a declaration synthesized from a registered prototype,
else null. -/
def getFunction (Name : String) (st : CGState) : Option ModFn × CGState :=
  match st.ModuleFns.find? (fun f => f.Name == Name) with
  | some f => (some f, st)
  | none =>
      match List.lookup Name st.FunctionProtos with
      | some p => let r := PrototypeAST.codegen p st; (some r.1, r.2)
      | none => (none, st)

/-- InstallBinopPrecedence (parser.cpp lines 40-42), acting on the
operator table carried in the lowering state. -/
def InstallBinopPrecedence (Op : Char) (Precedence : Int) (st : CGState) :
    CGState :=
  { st with BinopPrecedence :=
      alistSet st.BinopPrecedence (Int.ofNat Op.toNat) Precedence }

/-- The restore loop at the end of LetExprAST::codegen (ast.cpp lines
795-797): for each i below VarNames.size(), assign OldBindings[i] to
NamedValues[VarNames[i]]. -/
def letRestore : List String → List (Option Nat) →
    List (String × Option Nat) → List (String × Option Nat)
  | [], _, m => m
  | _ :: _, [], m => m
  | n :: ns, v :: vs, m => letRestore ns vs (alistSet m n v)

mutual

/-- ExprAST::codegen, one case per subclass, following src/src/ast.cpp
(NumberExprAST 208, VariableExprAST 225, BinaryExprAST 251,
UnaryExprAST 342, CallExprAST 366, IfExprAST 415, ForExprAST 493,
LetExprAST 751); the ForExprAST and LetExprAST bodies are the same in
src/src/ForExprAST.cpp and src/interpreter/src/LetExprAST.cpp.  The
fuel bounds recursion depth and is never exhausted in the statements
below. -/
def codegen : Nat → Expr → CGState → Option LValue × CGState
  | 0, _, st => (none, st)
  | fuel + 1, e, st =>
    match e with
    | .NumberExprAST v =>
        -- a compile-time constant; no instruction is emitted
        (some (.constFP v), st)
    | .VariableExprAST Name =>
        -- look this variable up in the function (operator[], which
        -- default-inserts the null pointer)
        let p := mapIndex st.NamedValues Name
        let st := { st with NamedValues := p.2 }
        match p.1 with
        | none => (none, st.logError (.UnknownVariableName Name))
        | some slot =>
            let r := st.freshReg
            (some (.reg r.1), r.2.emit (.load r.1 slot))
    | .UnaryExprAST Op Operand =>
        match codegen fuel Operand st with
        | (none, st) => (none, st)
        | (some ov, st) =>
            let fr := getFunction ("unary".push Op) st
            match fr.1 with
            | none => (none, fr.2.logError (.UnknownUnaryOperator Op))
            | some f =>
                let r := fr.2.freshReg
                (some (.reg r.1), r.2.emit (.call r.1 f.Name [ov]))
    | .BinaryExprAST Op LHS RHS =>
        -- both sides are lowered before the null check, and before the
        -- operator switch — including for the assignment operator
        let lr := codegen fuel LHS st
        let rr := codegen fuel RHS lr.2
        let st := rr.2
        match lr.1, rr.1 with
        | some l, some r =>
            if Op = '+' then
              let fr := st.freshReg
              (some (.reg fr.1), fr.2.emit (.fadd fr.1 l r))
            else if Op = '-' then
              let fr := st.freshReg
              (some (.reg fr.1), fr.2.emit (.fsub fr.1 l r))
            else if Op = '*' then
              let fr := st.freshReg
              (some (.reg fr.1), fr.2.emit (.fmul fr.1 l r))
            else if Op = '/' then
              let fr := st.freshReg
              (some (.reg fr.1), fr.2.emit (.fdiv fr.1 l r))
            else if Op = '<' then
              let fr := st.freshReg
              let st := fr.2.emit (.fcmpULT fr.1 l r)
              let fb := st.freshReg
              (some (.reg fb.1), fb.2.emit (.uitofp fb.1 (.reg fr.1)))
            else if Op = '>' then
              let fr := st.freshReg
              let st := fr.2.emit (.fcmpUGT fr.1 l r)
              let fb := st.freshReg
              (some (.reg fb.1), fb.2.emit (.uitofp fb.1 (.reg fr.1)))
            else if Op = '=' then
              -- the LHS must be a variable expression: a dynamic_cast
              -- to VariableExprAST, modelled as a constructor match
              match LHS with
              | .VariableExprAST lhsName =>
                  -- look up the variable by name (operator[] again)
                  let p := mapIndex st.NamedValues lhsName
                  let st := { st with NamedValues := p.2 }
                  match p.1 with
                  | none =>
                      (none,
                       st.logError (.UnknownVariableNameAssign lhsName))
                  | some slot => (some r, st.emit (.store r slot))
              | _ => (none, st.logError .NotAVariableExpression)
            else
              -- user-defined binary operator: assert(F), no error
              -- return path
              let fr := getFunction ("binary".push Op) st
              match fr.1 with
              | none => (none, { fr.2 with assertFailed := true })
              | some f =>
                  let r2 := fr.2.freshReg
                  (some (.reg r2.1), r2.2.emit (.call r2.1 f.Name [l, r]))
        | _, _ => (none, st)
    | .CallExprAST Callee Args =>
        let fr := getFunction Callee st
        match fr.1 with
        | none =>
            (none, fr.2.logError (.UnknownFunctionReferenced Callee))
        | some f =>
            let st := fr.2
            let expected := f.Args.length
            let actual := Args.length
            if expected ≠ actual then
              (none, st.logError
                (.WrongNumberOfArguments Callee expected actual))
            else
              match codegenArgs fuel Args st with
              | (none, st) => (none, st)
              | (some argVs, st) =>
                  let r := st.freshReg
                  (some (.reg r.1), r.2.emit (.call r.1 f.Name argVs))
    | .IfExprAST Cond Then Else =>
        match codegen fuel Cond st with
        | (none, st) => (none, st)
        | (some condV, st) =>
            let rc := st.freshReg
            let st := rc.2.emit (.fcmpONE rc.1 condV (.constFP 0))
            let tb := st.newBlock
            let eb := tb.2.newBlock
            let mb := eb.2.newBlock
            let st := mb.2.emit (.condbr (.reg rc.1) tb.1 eb.1)
            let st := { st with insertPt := tb.1 }
            match codegen fuel Then st with
            | (none, st) => (none, st)
            | (some thenV, st) =>
                let st := st.emit (.br mb.1)
                let thenEnd := st.insertPt
                let st := { st with insertPt := eb.1 }
                match codegen fuel Else st with
                | (none, st) => (none, st)
                | (some elseV, st) =>
                    let st := st.emit (.br mb.1)
                    let elseEnd := st.insertPt
                    let st := { st with insertPt := mb.1 }
                    let rp := st.freshReg
                    let st := rp.2.emit
                      (.phi rp.1 [(thenV, thenEnd), (elseV, elseEnd)])
                    (some (.reg rp.1), st)
    | .ForExprAST VarName Start End_ Step Body =>
        let al := CreateEntryBlockAlloca st
        let Alloca := al.1
        match codegen fuel Start al.2 with
        | (none, st) => (none, st)
        | (some startV, st) =>
            let st := st.emit (.store startV Alloca)
            let lb := st.newBlock
            let loopBB := lb.1
            let st := lb.2.emit (.br loopBB)
            let st := { st with insertPt := loopBB }
            -- save the old value of the variable in case it shadows an
            -- earlier one (operator[], default-inserting), and rebind
            let p := mapIndex st.NamedValues VarName
            let OldVal := p.1
            let st := { st with
              NamedValues := alistSet p.2 VarName (some Alloca) }
            match codegen fuel Body st with
            | (none, st) => (none, st)
            | (some _, st) =>
                -- the step value, 1.0 if not given
                let stepR :=
                  match Step with
                  | some s => codegen fuel s st
                  | none => ((some (.constFP 1) : Option LValue), st)
                match stepR with
                | (none, st) => (none, st)
                | (some stepV, st) =>
                    -- the conditional expression is emitted here,
                    -- before the reload/increment/store of the
                    -- induction variable
                    match codegen fuel End_ st with
                    | (none, st) => (none, st)
                    | (some condV, st) =>
                        let rc := st.freshReg
                        let st := rc.2.emit (.load rc.1 Alloca)
                        let ri := st.freshReg
                        let st := ri.2.emit (.fadd ri.1 (.reg rc.1) stepV)
                        let st := st.emit (.store (.reg ri.1) Alloca)
                        let rb := st.freshReg
                        let st := rb.2.emit (.fcmpONE rb.1 condV (.constFP 0))
                        let ab := st.newBlock
                        let st := ab.2.emit (.condbr (.reg rb.1) loopBB ab.1)
                        let st := { st with insertPt := ab.1 }
                        -- restore the variable that was potentially
                        -- shadowed before entering the loop
                        let st :=
                          match OldVal with
                          | some v => { st with NamedValues := (alistSet
                              st.NamedValues VarName (some v)) }
                          | none => { st with NamedValues := (alistErase
                              st.NamedValues VarName) }
                        (some (.constFP 0), st)
    | .LetExprAST VarNames Body =>
        -- OldBindings is CONSTRUCTED WITH VarNames.size() null elements
        -- (std::vector<llvm::AllocaInst *> OldBindings(VarNames.size()))
        -- and the loop then push_backs the saved bindings after them
        let OldBindings : List (Option Nat) :=
          List.replicate VarNames.length none
        match codegenLet fuel VarNames OldBindings st with
        | (none, st) => (none, st)
        | (some olds, st) =>
            match codegen fuel Body st with
            | (none, st) => (none, st)
            | (some bodyV, st) =>
                -- restore: for i < VarNames.size(), assign
                -- OldBindings[i] — the first VarNames.size() entries of
                -- olds, which are the initial null elements
                let st := { st with NamedValues := (letRestore
                  (VarNames.map Prod.fst) olds st.NamedValues) }
                (some bodyV, st)

/-- The argument loop of CallExprAST::codegen (ast.cpp lines 385-390):
lower each argument left to right, stopping at the first failure. -/
def codegenArgs : Nat → List Expr → CGState → Option (List LValue) × CGState
  | 0, _, st => (none, st)
  | _ + 1, [], st => (some [], st)
  | fuel + 1, a :: rest, st =>
      match codegen fuel a st with
      | (none, st) => (none, st)
      | (some v, st) =>
          match codegenArgs fuel rest st with
          | (none, st) => (none, st)
          | (some vs, st) => (some (v :: vs), st)

/-- The binding loop of LetExprAST::codegen (ast.cpp lines 759-788):
lower the initializer in the current scope (0.0 if absent), allocate
and store, push_back the old binding (operator[], default-inserting)
onto the accumulator, and rebind the name. -/
def codegenLet : Nat → List (String × Option Expr) → List (Option Nat) →
    CGState → Option (List (Option Nat)) × CGState
  | 0, _, _, st => (none, st)
  | _ + 1, [], acc, st => (some acc, st)
  | fuel + 1, (VarName, InitialExpr) :: rest, acc, st =>
      let initR :=
        match InitialExpr with
        | some e => codegen fuel e st
        | none => ((some (.constFP 0) : Option LValue), st)
      match initR with
      | (none, st) => (none, st)
      | (some initV, st) =>
          let al := CreateEntryBlockAlloca st
          let st := al.2.emit (.store initV al.1)
          let p := mapIndex st.NamedValues VarName
          let st := { st with
            NamedValues := alistSet p.2 VarName (some al.1) }
          codegenLet fuel rest (acc ++ [p.1]) st

end

/-- The parameter-binding loop of FunctionAST::codegen (ast.cpp lines
701-713): an alloca per argument, store the incoming value, record the
name in scope. -/
def bindParams : List String → Nat → CGState → CGState
  | [], _, st => st
  | nm :: rest, i, st =>
      let al := CreateEntryBlockAlloca st
      let st := al.2.emit (.store (.arg i) al.1)
      let st := { st with
        NamedValues := alistSet st.NamedValues nm (some al.1) }
      bindParams rest (i + 1) st

/-- Attach an entry block to the named module function. -/
def attachEntry : List ModFn → String → Nat → List ModFn
  | [], _, _ => []
  | f :: rest, nm, bb =>
      if f.Name == nm then { f with entry := some bb } :: rest
      else f :: attachEntry rest nm bb

/-- Function::eraseFromParent: remove the function from the module. -/
def eraseFromParent : List ModFn → String → List ModFn
  | [], _ => []
  | f :: rest, nm =>
      if f.Name == nm then rest else f :: eraseFromParent rest nm

/-- FunctionAST::codegen (ast.cpp lines 669-735): register the
prototype, resolve or declare the function, install a binary operator's
precedence BEFORE lowering the body, create the entry block, bind the
parameters in a fresh scope, lower the body; on success emit the
return (verification and the optimization passes change nothing
modelled here), on failure erase the function from the module. -/
def FunctionAST_codegen (fuel : Nat) (fn : FunctionAST) (st : CGState) :
    Option ModFn × CGState :=
  let P := fn.Proto
  let st := { st with
    FunctionProtos := alistSet st.FunctionProtos P.Name P }
  let fr := getFunction P.Name st
  match fr.1 with
  | none => (none, fr.2)
  | some Function =>
      let st :=
        if P.isBinaryOp then
          InstallBinopPrecedence P.getOperatorName (P.Precedence : Int) fr.2
        else fr.2
      let bb := st.newBlock
      let st := { bb.2 with
        insertPt := bb.1
        ModuleFns := attachEntry bb.2.ModuleFns P.Name bb.1
        NamedValues := [] }
      let st := bindParams Function.Args 0 st
      match codegen fuel fn.Body st with
      | (some retV, st) => (some Function, st.emit (.ret retV))
      | (none, st) =>
          (none, { st with
            ModuleFns := eraseFromParent st.ModuleFns P.Name })

/-- The initial lowering state: one empty current block (the insert
point a caller would provide), fresh counters, an empty module and
registry, and the operator table seeded by SetupBinopPrecedences. -/
def initState : CGState :=
  { NamedValues := [], blocks := [(0, [])], insertPt := 0, nextReg := 0,
    nextSlot := 0, nextLabel := 1, ModuleFns := [], FunctionProtos := [],
    BinopPrecedence := SetupBinopPrecedences, errors := [],
    assertFailed := false }

/-! ## Execution of the emitted code

An interpreter for the emitted instructions, used to observe what the
lowered code does when run (claim C4).  Registers and slots hold exact
rationals; fcmp results are the 0/1 values that uitofp turns into
0.0/1.0 — the i1/double distinction is collapsed since uitofp is the
identity on {0, 1}.  The only calls the statements below execute are to
the native extern putchard, which prints its argument and returns 0.0;
a call is recorded in an event list and yields 0.0. -/

/-- The mutable execution state: register file, slot contents, and the
external calls performed, in order. -/
structure ExecState where
  regs : List (Nat × ℚ)
  slots : List (Nat × ℚ)
  calls : List String
deriving DecidableEq

/-- The rational held by an llvm::Value during execution. -/
def evalV (args : List ℚ) (regs : List (Nat × ℚ)) : LValue → ℚ
  | .constFP q => q
  | .reg n => (List.lookup n regs).getD 0
  | .arg i => args.getD i 0

/-- Execute instructions: straight-line within a block, following
branches across blocks, returning the returned value.  prev tracks the
predecessor block for phi.  none on fuel exhaustion or on falling off a
block without a terminator. -/
def runInstrs (blocks : List (Nat × List Instr)) (args : List ℚ) :
    Nat → List Instr → Nat → Nat → ExecState → Option (ℚ × ExecState)
  | 0, _, _, _, _ => none
  | _ + 1, [], _, _, _ => none
  | fuel + 1, i :: rest, cur, prev, es =>
      match i with
      | .load dst slot =>
          runInstrs blocks args fuel rest cur prev { es with
            regs := alistSet es.regs dst ((List.lookup slot es.slots).getD 0) }
      | .store v slot =>
          runInstrs blocks args fuel rest cur prev { es with
            slots := alistSet es.slots slot (evalV args es.regs v) }
      | .fadd dst a b =>
          runInstrs blocks args fuel rest cur prev { es with
            regs := alistSet es.regs dst
              (evalV args es.regs a + evalV args es.regs b) }
      | .fsub dst a b =>
          runInstrs blocks args fuel rest cur prev { es with
            regs := alistSet es.regs dst
              (evalV args es.regs a - evalV args es.regs b) }
      | .fmul dst a b =>
          runInstrs blocks args fuel rest cur prev { es with
            regs := alistSet es.regs dst
              (evalV args es.regs a * evalV args es.regs b) }
      | .fdiv dst a b =>
          runInstrs blocks args fuel rest cur prev { es with
            regs := alistSet es.regs dst
              (evalV args es.regs a / evalV args es.regs b) }
      | .fcmpULT dst a b =>
          runInstrs blocks args fuel rest cur prev { es with
            regs := alistSet es.regs dst
              (if evalV args es.regs a < evalV args es.regs b then 1 else 0) }
      | .fcmpUGT dst a b =>
          runInstrs blocks args fuel rest cur prev { es with
            regs := alistSet es.regs dst
              (if evalV args es.regs b < evalV args es.regs a then 1 else 0) }
      | .fcmpONE dst a b =>
          runInstrs blocks args fuel rest cur prev { es with
            regs := alistSet es.regs dst
              (if evalV args es.regs a = evalV args es.regs b then 0 else 1) }
      | .uitofp dst a =>
          runInstrs blocks args fuel rest cur prev { es with
            regs := alistSet es.regs dst (evalV args es.regs a) }
      | .call dst callee cargs =>
          runInstrs blocks args fuel rest cur prev { es with
            calls := es.calls ++ [callee]
            regs := alistSet es.regs dst 0 }
      | .phi dst incoming =>
          let v :=
            match incoming.find? (fun p => p.2 == prev) with
            | some p => evalV args es.regs p.1
            | none => 0
          runInstrs blocks args fuel rest cur prev { es with
            regs := alistSet es.regs dst v }
      | .br target =>
          runInstrs blocks args fuel
            ((List.lookup target blocks).getD []) target cur es
      | .condbr c tb eb =>
          let t := if evalV args es.regs c = 0 then eb else tb
          runInstrs blocks args fuel ((List.lookup t blocks).getD []) t cur es
      | .ret v => some (evalV args es.regs v, es)

/-- Run a module function with a body on the given arguments. -/
def runFunction (st : CGState) (fname : String) (args : List ℚ)
    (fuel : Nat) : Option (ℚ × ExecState) :=
  match st.ModuleFns.find? (fun f => f.Name == fname) with
  | some f =>
      match f.entry with
      | some bb =>
          runInstrs st.blocks args fuel ((List.lookup bb st.blocks).getD [])
            bb bb ⟨[], [], []⟩
      | none => none
  | none => none

/-! ## Claim C4 -/

/-- The prototype the REPL registers for the native extern putchard. -/
def putchardProto : PrototypeAST := ⟨"putchard", ["c"], false, 0⟩

/-- The anonymous prototype ParseTopLevelExpr wraps a top-level
expression in (parser.cpp lines 503-511). -/
def anonProto : PrototypeAST := ⟨"__anon_expr", [], false, 0⟩

/-- The expression for i = 0, i < 5 in putchard(42), with the given
step (none = omitted). -/
def c4Body (step : Option Expr) : Expr :=
  .ForExprAST "i" (.NumberExprAST 0)
    (.BinaryExprAST '<' (.VariableExprAST "i") (.NumberExprAST 5)) step
    (.CallExprAST "putchard" [.NumberExprAST 42])

/-- Initial state with putchard registered (as after extern
putchard(c)). -/
def c4State : CGState :=
  { initState with FunctionProtos := [("putchard", putchardProto)] }

/-- Lower the anonymous function wrapping the loop. -/
def c4Lower (step : Option Expr) : CGState :=
  (FunctionAST_codegen 32 ⟨anonProto, c4Body step⟩ c4State).2

/-- Run the lowered anonymous function and count the calls to putchard
— the number of times the loop body executed. -/
def c4BodyCount (step : Option Expr) : Nat :=
  match runFunction (c4Lower step) "__anon_expr" [] 300 with
  | some r => (r.2.calls.filter (fun s => s == "putchard")).length
  | none => 0

/-- Counterexample to C4: lowering for i = 0, i < 5 in putchard(42)
with the step omitted (defaulting to 1.0) and running the emitted code
executes the body 6 times, not 5: the end condition is lowered before
the increment, so it tests the pre-increment value of i, and the body
runs for i = 0, 1, 2, 3, 4, 5. -/
theorem c4_for_step_counterexample :
    c4BodyCount none = 6 ∧ c4BodyCount none ≠ 5 := by
  constructor <;> with_unfolding_all decide

/-- C4 as amended: in the loop block emitted for
for i = 0, i < 5 in putchard(42), the end-condition code (the load of
i, the comparison with 5 and the bool-to-double conversion) is emitted
BEFORE the reload/add-step/store of the loop variable, so each
iteration branches on the end value computed from the pre-increment
variable and the body executes 6 times; an omitted step still behaves
identically to an explicit step of 1.0 (the emitted blocks are the
same), also executing the body 6 times. -/
theorem c4_for_step_amended :
    (List.lookup 2 (c4Lower none).blocks).getD [] =
      [.call 0 "putchard" [.constFP 42],
       .load 1 0,
       .fcmpULT 2 (.reg 1) (.constFP 5),
       .uitofp 3 (.reg 2),
       .load 4 0,
       .fadd 5 (.reg 4) (.constFP 1),
       .store (.reg 5) 0,
       .fcmpONE 6 (.reg 3) (.constFP 0),
       .condbr (.reg 6) 2 3] ∧
    (c4Lower none).blocks = (c4Lower (some (.NumberExprAST 1))).blocks ∧
    c4BodyCount none = 6 ∧
    c4BodyCount (some (.NumberExprAST 1)) = 6 := by
  refine ⟨?_, ?_, ?_, ?_⟩ <;> with_unfolding_all decide

/-! ## Claim C1 -/

/-- let a = 2 in a. -/
def c1Let : Expr :=
  .LetExprAST [("a", some (.NumberExprAST 2))] (.VariableExprAST "a")

/-- let a = 2 in z, whose body fails to lower (z unbound). -/
def c1LetBad : Expr :=
  .LetExprAST [("a", some (.NumberExprAST 2))] (.VariableExprAST "z")

/-- let b = 1 in 0, binding a name with no prior binding. -/
def c1LetFresh : Expr :=
  .LetExprAST [("b", some (.NumberExprAST 1))] (.NumberExprAST 0)

/-- A scope in which a is bound to slot 7 before the let. -/
def c1State : CGState :=
  { initState with NamedValues := [("a", some 7)], nextSlot := 8 }

/-- C1 is refuted by the code: LetExprAST::codegen constructs
OldBindings with VarNames.size() value-initialized null elements
(std::vector OldBindings(VarNames.size())) and then push_backs the
saved bindings BEHIND them, so the restore loop, which reads indices
0..VarNames.size()-1, restores the leading nulls instead of the saved
bindings.  After successfully lowering let a = 2 in a in a scope where
a was bound to slot 7, a is mapped to the null pointer — neither the
prior binding (slot 7) nor absent.  A name with no prior binding is
likewise left present and null, not absent.  And when the body fails to
lower, no restore runs at all: the let-bound slot leaks. -/
theorem c1_let_scope_restore_bug :
    (codegen 9 c1Let c1State).1.isSome = true ∧
    List.lookup "a" (codegen 9 c1Let c1State).2.NamedValues = some none ∧
    some (none : Option Nat) ≠ some (some 7) ∧
    List.lookup "b" (codegen 9 c1LetFresh initState).2.NamedValues =
      some none ∧
    (codegen 9 c1LetBad c1State).1 = none ∧
    List.lookup "a" (codegen 9 c1LetBad c1State).2.NamedValues =
      some (some 8) := by
  refine ⟨?_, ?_, ?_, ?_, ?_, ?_⟩ <;> with_unfolding_all decide

/-! ## Claim C2 -/

/-- for i = 0, 1 in z: the body fails to lower. -/
def c2ForBadBody : Expr :=
  .ForExprAST "i" (.NumberExprAST 0) (.NumberExprAST 1) none
    (.VariableExprAST "z")

/-- for i = 0, 1, z in 7: the step fails to lower. -/
def c2ForBadStep : Expr :=
  .ForExprAST "i" (.NumberExprAST 0) (.NumberExprAST 1)
    (some (.VariableExprAST "z")) (.NumberExprAST 7)

/-- for i = 0, z in 7: the end expression fails to lower. -/
def c2ForBadEnd : Expr :=
  .ForExprAST "i" (.NumberExprAST 0) (.VariableExprAST "z") none
    (.NumberExprAST 7)

/-- for i = 0, 1 in 7: everything lowers. -/
def c2ForGood : Expr :=
  .ForExprAST "i" (.NumberExprAST 0) (.NumberExprAST 1) none
    (.NumberExprAST 7)

/-- Counterexample to C2: lowering for i = 0, 1 in z, whose body fails
(z is unbound), in a scope with no previous binding for i, returns
failure with i still bound to the loop's freshly allocated slot 0 — the
restore/removal is skipped on the failure path, so the stale binding
leaks. -/
theorem c2_for_restore_counterexample :
    (codegen 9 c2ForBadBody initState).1 = none ∧
    List.lookup "i" (codegen 9 c2ForBadBody initState).2.NamedValues =
      some (some 0) := by
  constructor <;> with_unfolding_all decide

/-- C2 as amended: ForExprAST::codegen restores the previous binding of
the loop variable (or removes it when none existed) only on the success
path; when the body, the step or the end expression fails to lower, it
returns immediately and the loop variable stays bound to the new slot
in the enclosing scope. -/
theorem c2_for_restore_amended :
    (∀ w : Nat,
      List.lookup "i" (codegen 9 c2ForGood
        { initState with NamedValues := [("i", some w)] }).2.NamedValues =
        some (some w)) ∧
    List.lookup "i" (codegen 9 c2ForGood initState).2.NamedValues = none ∧
    List.lookup "i" (codegen 9 c2ForBadBody initState).2.NamedValues =
      some (some 0) ∧
    List.lookup "i" (codegen 9 c2ForBadStep initState).2.NamedValues =
      some (some 0) ∧
    List.lookup "i" (codegen 9 c2ForBadEnd initState).2.NamedValues =
      some (some 0) := by
  refine ⟨fun w => by with_unfolding_all rfl, ?_, ?_, ?_, ?_⟩ <;>
    with_unfolding_all decide

/-! ## Claim C3 -/

/-- The prototype def binary& 5 (a b), a user-defined binary operator
with precedence 5. -/
def c3Proto : PrototypeAST := ⟨"binary&", ["a", "b"], true, 5⟩

/-- def binary& 5 (a b) z — the body fails to lower (z unbound). -/
def c3Fn : FunctionAST := ⟨c3Proto, .VariableExprAST "z"⟩

/-- def binary| 6 (a b) a — a definition that lowers successfully. -/
def c3GoodFn : FunctionAST := ⟨⟨"binary|", ["a", "b"], true, 6⟩,
  .VariableExprAST "a"⟩

/-- Counterexample to C3: lowering def binary& 5 (a b) z fails (the
body references the unbound z), yet afterwards the Operator Table maps
the character 38 (an ampersand) to precedence 5 and the prototype
registry holds the binary& prototype: FunctionAST::codegen registers
the prototype and installs the precedence BEFORE lowering the body, and
neither is rolled back on failure. -/
theorem c3_fn_failure_counterexample :
    (FunctionAST_codegen 9 c3Fn initState).1 = none ∧
    List.lookup 38 (FunctionAST_codegen 9 c3Fn initState).2.BinopPrecedence
      = some 5 ∧
    List.lookup "binary&"
      (FunctionAST_codegen 9 c3Fn initState).2.FunctionProtos =
      some c3Proto := by
  refine ⟨?_, ?_, ?_⟩ <;> with_unfolding_all decide

/-- C3 as amended: when a definition's body fails to lower, the
partially emitted backend function is indeed erased from the module, so
the name can be redefined; but the binary operator's precedence
installation and the prototype registration happen before the body is
lowered and persist after the failure.  A successful definition
likewise installs its precedence and stays in the module. -/
theorem c3_fn_failure_amended :
    (FunctionAST_codegen 9 c3Fn initState).2.ModuleFns.find?
      (fun f => f.Name == "binary&") = none ∧
    List.lookup 38 (FunctionAST_codegen 9 c3Fn initState).2.BinopPrecedence
      = some 5 ∧
    (List.lookup "binary&"
      (FunctionAST_codegen 9 c3Fn initState).2.FunctionProtos).isSome =
      true ∧
    ((FunctionAST_codegen 9 c3GoodFn initState).2.ModuleFns.find?
      (fun f => f.Name == "binary|")).isSome = true ∧
    List.lookup 124
      (FunctionAST_codegen 9 c3GoodFn initState).2.BinopPrecedence =
      some 6 := by
  refine ⟨?_, ?_, ?_, ?_, ?_⟩ <;> with_unfolding_all decide

/-! ## Claim C6 -/

/-- A scope in which x is bound to slot 5. -/
def c6State : CGState :=
  { initState with NamedValues := [("x", some 5)], nextSlot := 6 }

/-- The assignment x = 2. -/
def c6Assign : Expr :=
  .BinaryExprAST '=' (.VariableExprAST "x") (.NumberExprAST 2)

/-- C6 is half right and half wrong about the code, and the wrong half
contradicts the code's own comment: BinaryExprAST::codegen lowers BOTH
operands before the operator switch, so for the assignment x = 2 with x
bound the emitted block contains a load of x (the lowered left operand,
whose value is then discarded) before the store — the comment says the
LHS is not emitted as an expression, but it is.  The remaining parts of
the claim hold: the assignment still requires the LHS to be a
VariableExprAST via downcast, 1 = 2 fails with the
not-a-variable-expression diagnostic, and a bound-variable assignment
stores the RHS and yields the RHS value. -/
theorem c6_assignment_lowers_lhs :
    (codegen 9 c6Assign c6State).1 = some (.constFP 2) ∧
    (List.lookup 0 (codegen 9 c6Assign c6State).2.blocks).getD [] =
      [.load 0 5, .store (.constFP 2) 5] ∧
    (codegen 9 (.BinaryExprAST '=' (.NumberExprAST 1) (.NumberExprAST 2))
      initState).1 = none ∧
    (codegen 9 (.BinaryExprAST '=' (.NumberExprAST 1) (.NumberExprAST 2))
      initState).2.errors = [.NotAVariableExpression] := by
  refine ⟨?_, ?_, ?_, ?_⟩ <;> with_unfolding_all decide

/-! ## Claim C9 -/

/-- Looking a key up in an association list it is absent from, after
appending an entry for that key, finds the appended entry. -/
theorem lookup_append_single {α : Type} (m : List (String × α)) (x : String)
    (v : α) (h : List.lookup x m = none) :
    List.lookup x (m ++ [(x, v)]) = some v := by
  induction m with
  | nil => simp [List.lookup]
  | cons p rest ih =>
      obtain ⟨k, w⟩ := p
      cases hx : (x == k) with
      | true =>
          exfalso
          simp only [List.lookup, hx] at h
          exact Option.noConfusion h
      | false =>
          simp only [List.lookup, hx] at h
          simp only [List.cons_append, List.lookup, hx]
          exact ih h

/-- C9: scope lookups during lowering go through operator[]
(mapIndex), which default-inserts a null entry — the same mapIndex is
the saved-previous-binding consult in ForExprAST::codegen and
LetExprAST::codegen.  For a Variable reference to a name absent from
the scope, lowering fails with the unknown-variable diagnostic and
leaves the name PRESENT in NamedValues, mapped to the null pointer,
rather than absent. -/
theorem c9_default_insert_lookup (x : String) (st : CGState) (fuel : Nat)
    (h : List.lookup x st.NamedValues = none) :
    (codegen (fuel + 1) (.VariableExprAST x) st).1 = none ∧
    (codegen (fuel + 1) (.VariableExprAST x) st).2.NamedValues =
      st.NamedValues ++ [(x, none)] ∧
    List.lookup x
      (codegen (fuel + 1) (.VariableExprAST x) st).2.NamedValues =
      some none ∧
    (codegen (fuel + 1) (.VariableExprAST x) st).2.errors =
      st.errors ++ [.UnknownVariableName x] := by
  have hrun : codegen (fuel + 1) (.VariableExprAST x) st =
      (none, { st with
        NamedValues := st.NamedValues ++ [(x, none)]
        errors := st.errors ++ [.UnknownVariableName x] }) := by
    simp [codegen, mapIndex, h, CGState.logError]
  refine ⟨by rw [hrun], by rw [hrun], ?_, by rw [hrun]⟩
  rw [hrun]
  exact lookup_append_single _ _ _ h

/-- Witness for C9 at a concrete input: x is absent from the empty
initial scope; after the failed lookup it is present, mapped to
null. -/
theorem c9_default_insert_lookup_witness :
    List.lookup "x" initState.NamedValues = none ∧
    ((codegen (0 + 1) (.VariableExprAST "x") initState).1 = none ∧
     (codegen (0 + 1) (.VariableExprAST "x") initState).2.NamedValues =
       initState.NamedValues ++ [("x", none)] ∧
     List.lookup "x"
       (codegen (0 + 1) (.VariableExprAST "x") initState).2.NamedValues =
       some none ∧
     (codegen (0 + 1) (.VariableExprAST "x") initState).2.errors =
       initState.errors ++ [.UnknownVariableName "x"]) :=
  ⟨rfl, c9_default_insert_lookup "x" initState 0 rfl⟩

/-! ## Claim C10 -/

/-- C10: for a Binary node whose operator is none of the built-ins
(+ - * / < > =), lowering looks up the backend function binary<op> and
ASSERTS it exists: in a state where no such function or prototype
exists, the assert fires (recorded in assertFailed) and no diagnostic
is logged — there is no error-return path.  The unary case, by
contrast, returns through the unknown-unary-operator diagnostic with no
assert. -/
theorem c10_binary_assert (op : Char) (h1 : op ≠ '+') (h2 : op ≠ '-')
    (h3 : op ≠ '*') (h4 : op ≠ '/') (h5 : op ≠ '<') (h6 : op ≠ '>')
    (h7 : op ≠ '=') (fuel : Nat) :
    ((codegen (fuel + 2)
        (.BinaryExprAST op (.NumberExprAST 1) (.NumberExprAST 2))
        initState).1 = none ∧
     (codegen (fuel + 2)
        (.BinaryExprAST op (.NumberExprAST 1) (.NumberExprAST 2))
        initState).2.assertFailed = true ∧
     (codegen (fuel + 2)
        (.BinaryExprAST op (.NumberExprAST 1) (.NumberExprAST 2))
        initState).2.errors = []) ∧
    ((codegen 2 (.UnaryExprAST '!' (.NumberExprAST 1)) initState).1 =
        none ∧
     (codegen 2 (.UnaryExprAST '!' (.NumberExprAST 1))
        initState).2.errors = [.UnknownUnaryOperator '!'] ∧
     (codegen 2 (.UnaryExprAST '!' (.NumberExprAST 1))
        initState).2.assertFailed = false) := by
  constructor
  · simp [codegen, getFunction, initState, h1, h2, h3, h4, h5, h6, h7]
  · refine ⟨?_, ?_, ?_⟩ <;> with_unfolding_all decide

/-- Witness for C10 at the concrete operator 38 (an ampersand). -/
theorem c10_binary_assert_witness :
    ((codegen (0 + 2)
        (.BinaryExprAST '&' (.NumberExprAST 1) (.NumberExprAST 2))
        initState).1 = none ∧
     (codegen (0 + 2)
        (.BinaryExprAST '&' (.NumberExprAST 1) (.NumberExprAST 2))
        initState).2.assertFailed = true ∧
     (codegen (0 + 2)
        (.BinaryExprAST '&' (.NumberExprAST 1) (.NumberExprAST 2))
        initState).2.errors = []) ∧
    ((codegen 2 (.UnaryExprAST '!' (.NumberExprAST 1)) initState).1 =
        none ∧
     (codegen 2 (.UnaryExprAST '!' (.NumberExprAST 1))
        initState).2.errors = [.UnknownUnaryOperator '!'] ∧
     (codegen 2 (.UnaryExprAST '!' (.NumberExprAST 1))
        initState).2.assertFailed = false) :=
  c10_binary_assert '&' (by decide) (by decide) (by decide) (by decide)
    (by decide) (by decide) (by decide) 0
